import Mathlib

/-!
Verification of the World Bank labor-force notebook
(Team_Projects/SampleTeam/example_notebook.py).

The notebook is a linear ETL pipeline: download two CSV files, load them
into DuckDB, derive a cleaned fact table (indicator_clean), a hardcoded
country-to-region mapping (region_mapping), an enriched fact table
(indicator_with_region, a left join), two aggregates (regional_df and
summary_df) and one chart.  This file embeds each SQL stage as a Lean
function over row lists and proves the spec's claims about them.

Conventions of the embedding:
- a SQL table is a List of a structure type, one field per column;
- DOUBLE columns are embedded as exact rationals;
- nullable raw columns are Option-valued; CAST is an Except (DuckDB's
  CAST raises a conversion error, it does not NULL out a row);
- string comparison is byte-wise (DuckDB's default binary collation),
  embedded as lexicographic comparison of the character lists.
-/

namespace WorldBank

/-! ### String helpers: SQL UPPER and binary string ordering -/

/-- SQL UPPER for the ASCII country codes: uppercase every character. -/
def upper (s : String) : String := String.mk (s.data.map Char.toUpper)

/-- Lexicographic strict order on character lists: the order DuckDB's
default binary collation gives to ORDER BY on a VARCHAR column. -/
def charListLt : List Char → List Char → Bool
  | [], [] => false
  | [], _ :: _ => true
  | _ :: _, [] => false
  | a :: as, b :: bs => if a < b then true else if b < a then false else charListLt as bs

/-- Strict binary order on strings. -/
def strLt (a b : String) : Bool := charListLt a.data b.data

theorem charListLt_irrefl : ∀ l : List Char, charListLt l l = false := by
  intro l
  induction l with
  | nil => rfl
  | cons a as ih => simp [charListLt, ih]

theorem charListLt_trans : ∀ a b c : List Char,
    charListLt a b = true → charListLt b c = true → charListLt a c = true := by
  intro a
  induction a with
  | nil =>
    intro b c hab hbc
    cases b with
    | nil => exact hbc
    | cons y ys => cases c with
      | nil => simp [charListLt] at hbc
      | cons z zs => rfl
  | cons x xs ih =>
    intro b c hab hbc
    cases b with
    | nil => simp [charListLt] at hab
    | cons y ys =>
      cases c with
      | nil => simp [charListLt] at hbc
      | cons z zs =>
        simp only [charListLt] at hab hbc ⊢
        rcases lt_trichotomy x y with h1 | h1 | h1
        · rcases lt_trichotomy y z with h2 | h2 | h2
          · simp [lt_trans h1 h2]
          · subst h2
            simp [h1]
          · simp [h2, asymm h2] at hbc
        · subst h1
          rcases lt_trichotomy x z with h2 | h2 | h2
          · simp [h2]
          · subst h2
            simp [lt_irrefl] at hab hbc ⊢
            exact ih ys zs hab hbc
          · simp [h2, asymm h2] at hbc
        · simp [h1, asymm h1] at hab

theorem charListLt_trichotomy : ∀ a b : List Char,
    charListLt a b = true ∨ a = b ∨ charListLt b a = true := by
  intro a
  induction a with
  | nil =>
    intro b
    cases b with
    | nil => exact Or.inr (Or.inl rfl)
    | cons y ys => exact Or.inl rfl
  | cons x xs ih =>
    intro b
    cases b with
    | nil => exact Or.inr (Or.inr rfl)
    | cons y ys =>
      rcases lt_trichotomy x y with hxy | hxy | hxy
      · exact Or.inl (by simp [charListLt, hxy])
      · subst hxy
        rcases ih ys with h | h | h
        · exact Or.inl (by simp [charListLt, h])
        · exact Or.inr (Or.inl (by rw [h]))
        · exact Or.inr (Or.inr (by simp [charListLt, h]))
      · exact Or.inr (Or.inr (by simp [charListLt, hxy, asymm hxy]))

theorem strLt_irrefl (a : String) : strLt a a = false := charListLt_irrefl a.data

theorem strLt_trans {a b c : String} (hab : strLt a b = true) (hbc : strLt b c = true) :
    strLt a c = true := charListLt_trans a.data b.data c.data hab hbc

theorem strLt_trichotomy (a b : String) : strLt a b = true ∨ a = b ∨ strLt b a = true := by
  rcases charListLt_trichotomy a.data b.data with h | h | h
  · exact Or.inl h
  · exact Or.inr (Or.inl (by cases a with | mk da => cases b with | mk db => exact congrArg String.mk h))
  · exact Or.inr (Or.inr h)

/-! ### Raw rows and the cleaning stage (indicator_clean, lines 150-161)

The raw CSV columns used by the SELECT.  OBS_VALUE and TIME_PERIOD are
nullable and untyped at ingestion; the other three are carried through
verbatim.  CAST(... AS INTEGER) and CAST(... AS DOUBLE) are strict
parses that raise a conversion error on a non-numeric string, so the
whole statement is an Except. -/

structure RawRow where
  REF_AREA : String
  REF_AREA_LABEL : String
  TIME_PERIOD : Option String
  OBS_VALUE : Option String
  INDICATOR_LABEL : String
deriving DecidableEq

/-- Decimal digits to a natural number. -/
def digitsToNat (cs : List Char) : Nat := cs.foldl (fun n c => 10 * n + (c.toNat - 48)) 0

/-- A nonempty all-digit character list. -/
def isDigits (cs : List Char) : Bool := !cs.isEmpty && cs.all Char.isDigit

/-- DuckDB CAST(s AS INTEGER): an optional sign followed by digits;
anything else raises a conversion error. -/
def castInteger (s : String) : Except String Int :=
  match s.data with
  | '-' :: cs => if isDigits cs then .ok (-(digitsToNat cs : Int)) else .error "Conversion Error: INTEGER"
  | cs => if isDigits cs then .ok (digitsToNat cs : Int) else .error "Conversion Error: INTEGER"

/-- Split a character list at the first dot, keeping what follows it. -/
def breakDot : List Char → List Char × Option (List Char)
  | [] => ([], none)
  | c :: cs =>
    if c = '.' then ([], some cs)
    else
      let p := breakDot cs
      (c :: p.1, p.2)

/-- The rational a decimal literal with integer part ip and fraction part fp denotes. -/
def decimalToRat (ip fp : List Char) : ℚ :=
  mkRat (digitsToNat ip * 10 ^ fp.length + digitsToNat fp) (10 ^ fp.length)

/-- DuckDB CAST(s AS DOUBLE): an optional sign, digits, and an optional
fraction; anything else raises a conversion error.  The value is kept
exact as a rational. -/
def castDouble (s : String) : Except String ℚ :=
  let signed : Bool × List Char :=
    match s.data with
    | '-' :: cs => (true, cs)
    | cs => (false, cs)
  let p := breakDot signed.2
  let q : Option ℚ :=
    match p.2 with
    | none => if isDigits p.1 then some (mkRat (digitsToNat p.1) 1) else none
    | some fp => if isDigits p.1 && isDigits fp then some (decimalToRat p.1 fp) else none
  match q with
  | some v => .ok (if signed.1 then -v else v)
  | none => .error "Conversion Error: DOUBLE"

/-- One row of indicator_clean: the five selected, typed columns. -/
structure CleanRow where
  country_code : String
  country_name : String
  year : Int
  value : ℚ
  indicator_name : String
deriving DecidableEq

/-- The SELECT list of indicator_clean applied to one surviving raw row:
both casts must succeed or the statement fails. -/
def castRow (r : RawRow) : Except String CleanRow := do
  let y ← castInteger (r.TIME_PERIOD.getD "")
  let v ← castDouble (r.OBS_VALUE.getD "")
  pure ⟨r.REF_AREA, r.REF_AREA_LABEL, y, v, r.INDICATOR_LABEL⟩

/-- Casting every surviving row; the first conversion error aborts the
statement, as DuckDB's CAST does. -/
def castRows : List RawRow → Except String (List CleanRow)
  | [] => .ok []
  | r :: rs =>
    match castRow r with
    | .error e => .error e
    | .ok c =>
      match castRows rs with
      | .error e => .error e
      | .ok cs => .ok (c :: cs)

/-- The WHERE clause of indicator_clean: OBS_VALUE IS NOT NULL AND
TIME_PERIOD IS NOT NULL. -/
def notNullRow (r : RawRow) : Bool := r.OBS_VALUE.isSome && r.TIME_PERIOD.isSome

/-- CREATE OR REPLACE TABLE indicator_clean (notebook lines 150-161):
filter out null OBS_VALUE / TIME_PERIOD, then cast the five columns. -/
def indicator_clean (raw : List RawRow) : Except String (List CleanRow) :=
  castRows (raw.filter notNullRow)

/-! ### The hardcoded region mapping (notebook lines 181-238)

The VALUES list of CREATE OR REPLACE TABLE region_mapping, verbatim:
45 (country_code, region) pairs. -/

def region_mapping : List (String × String) := [
  ("CHN", "East Asia & Pacific"),
  ("JPN", "East Asia & Pacific"),
  ("KOR", "East Asia & Pacific"),
  ("AUS", "East Asia & Pacific"),
  ("IDN", "East Asia & Pacific"),
  ("THA", "East Asia & Pacific"),
  ("VNM", "East Asia & Pacific"),
  ("MYS", "East Asia & Pacific"),
  ("PHL", "East Asia & Pacific"),
  ("NZL", "East Asia & Pacific"),
  ("DEU", "Europe & Central Asia"),
  ("FRA", "Europe & Central Asia"),
  ("GBR", "Europe & Central Asia"),
  ("ITA", "Europe & Central Asia"),
  ("ESP", "Europe & Central Asia"),
  ("POL", "Europe & Central Asia"),
  ("NLD", "Europe & Central Asia"),
  ("TUR", "Europe & Central Asia"),
  ("RUS", "Europe & Central Asia"),
  ("UKR", "Europe & Central Asia"),
  ("BRA", "Latin America & Caribbean"),
  ("MEX", "Latin America & Caribbean"),
  ("ARG", "Latin America & Caribbean"),
  ("COL", "Latin America & Caribbean"),
  ("CHL", "Latin America & Caribbean"),
  ("PER", "Latin America & Caribbean"),
  ("VEN", "Latin America & Caribbean"),
  ("EGY", "Middle East & North Africa"),
  ("SAU", "Middle East & North Africa"),
  ("IRN", "Middle East & North Africa"),
  ("IRQ", "Middle East & North Africa"),
  ("MAR", "Middle East & North Africa"),
  ("DZA", "Middle East & North Africa"),
  ("USA", "North America"),
  ("CAN", "North America"),
  ("IND", "South Asia"),
  ("PAK", "South Asia"),
  ("BGD", "South Asia"),
  ("LKA", "South Asia"),
  ("NPL", "South Asia"),
  ("NGA", "Sub-Saharan Africa"),
  ("ZAF", "Sub-Saharan Africa"),
  ("KEN", "Sub-Saharan Africa"),
  ("ETH", "Sub-Saharan Africa"),
  ("GHA", "Sub-Saharan Africa"),
  ("TZA", "Sub-Saharan Africa")]

/-! ### Enrichment: the left join (notebook lines 244-251)

LEFT JOIN region_mapping r ON UPPER(i.country_code) = r.country_code,
SELECT i.*, COALESCE(r.region, 'Other') AS region.  A clean row with no
matching mapping row yields one output row with region 'Other'; with
matches it yields one output row per match. -/

structure EnrichedRow where
  country_code : String
  country_name : String
  year : Int
  value : ℚ
  indicator_name : String
  region : String
deriving DecidableEq

/-- The mapping rows the join condition matches for a given clean-table
country code. -/
def matchesFor (code : String) : List (String × String) :=
  region_mapping.filter (fun m => m.1 == upper code)

/-- The left-join output rows produced by one clean row. -/
def enrichRow (i : CleanRow) : List EnrichedRow :=
  match matchesFor i.country_code with
  | [] => [⟨i.country_code, i.country_name, i.year, i.value, i.indicator_name, "Other"⟩]
  | ms => ms.map (fun m => ⟨i.country_code, i.country_name, i.year, i.value, i.indicator_name, m.2⟩)

/-- CREATE OR REPLACE TABLE indicator_with_region (lines 244-251). -/
def indicator_with_region (clean : List CleanRow) : List EnrichedRow :=
  clean.flatMap enrichRow

/-- The single row one clean row turns into (the mapping has at most one
match per code, proved below). -/
def enrichOne (i : CleanRow) : EnrichedRow :=
  ⟨i.country_code, i.country_name, i.year, i.value, i.indicator_name,
    ((matchesFor i.country_code).map Prod.snd).headD "Other"⟩

/-! ### The shared aggregation filter (lines 273-275 and 336)

WHERE region != 'Unknown' AND region IS NOT NULL AND region != ''.
Under SQL three-valued logic a NULL region fails the filter. -/

def regionFilter : Option String → Bool
  | none => false
  | some s => !(s == "Unknown") && !(s == "")

/-- The filtered enriched rows both aggregation queries read (the region
column produced by COALESCE is never NULL). -/
def filteredRows (rows : List EnrichedRow) : List EnrichedRow :=
  rows.filter (fun r => regionFilter (some r.region))

/-! ### Aggregation (regional_df, lines 266-279; summary_df, lines 328-339) -/

/-- AVG over a group's values (exact rational arithmetic in place of the
notebook's DOUBLE). -/
def avgQ (l : List ℚ) : ℚ := l.sum / l.length

/-- COUNT(DISTINCT -) over a group's country codes. -/
def countDistinct (l : List String) : Nat := l.dedup.length

/-- One output row of regional_df. -/
structure RegionYearRow where
  region : String
  year : Int
  avg_participation_rate : ℚ
  num_countries : Nat
deriving DecidableEq

/-- The GROUP BY region, year keys, in first-appearance order. -/
def groupKeysRY (rows : List EnrichedRow) : List (String × Int) :=
  (rows.map (fun r => (r.region, r.year))).dedup

/-- The rows of one (region, year) group. -/
def groupRY (rows : List EnrichedRow) (k : String × Int) : List EnrichedRow :=
  rows.filter (fun r => r.region == k.1 && r.year == k.2)

/-- The SELECT list of regional_df for one group. -/
def ryRow (rows : List EnrichedRow) (k : String × Int) : RegionYearRow :=
  ⟨k.1, k.2, avgQ ((groupRY rows k).map (fun r => r.value)),
    countDistinct ((groupRY rows k).map (fun r => r.country_code))⟩

/-- ORDER BY region, year: the ascending lexicographic key order. -/
def ryLE (a b : RegionYearRow) : Prop :=
  strLt a.region b.region = true ∨ (a.region = b.region ∧ a.year ≤ b.year)

instance : DecidableRel ryLE := fun a b => by unfold ryLE; infer_instance

instance : IsTotal RegionYearRow ryLE := by
  constructor
  intro a b
  rcases strLt_trichotomy a.region b.region with h | h | h
  · exact Or.inl (Or.inl h)
  · rcases le_total a.year b.year with h2 | h2
    · exact Or.inl (Or.inr ⟨h, h2⟩)
    · exact Or.inr (Or.inr ⟨h.symm, h2⟩)
  · exact Or.inr (Or.inl h)

instance : IsTrans RegionYearRow ryLE := by
  constructor
  intro a b c hab hbc
  rcases hab with h1 | ⟨h1, h1y⟩
  · rcases hbc with h2 | ⟨h2, _⟩
    · exact Or.inl (strLt_trans h1 h2)
    · exact Or.inl (h2 ▸ h1)
  · rcases hbc with h2 | ⟨h2, h2y⟩
    · exact Or.inl (h1 ▸ h2)
    · exact Or.inr ⟨h1.trans h2, le_trans h1y h2y⟩

/-- The regional_df query (lines 266-279): filter, group by (region,
year), compute AVG(value) and COUNT(DISTINCT country_code), keep groups
with at least 3 distinct countries, sort ascending by (region, year). -/
def regional_df (rows : List EnrichedRow) : List RegionYearRow :=
  List.insertionSort ryLE
    (((groupKeysRY (filteredRows rows)).map (ryRow (filteredRows rows))).filter
      (fun a => decide (3 ≤ a.num_countries)))

/-- One output row of summary_df. -/
structure SummaryRow where
  region : String
  first_year : Int
  last_year : Int
  avg_rate : ℚ
  data_points : Nat
deriving DecidableEq

/-- MIN over a group's years. -/
def minList : List Int → Int
  | [] => 0
  | x :: xs => xs.foldl min x

/-- MAX over a group's years. -/
def maxList : List Int → Int
  | [] => 0
  | x :: xs => xs.foldl max x

/-- ROUND(x, 1): round to one decimal place. -/
def round1 (x : ℚ) : ℚ := (round (10 * x) : ℤ) / 10

/-- The rows of one region group. -/
def groupS (rows : List EnrichedRow) (k : String) : List EnrichedRow :=
  rows.filter (fun r => r.region == k)

/-- The SELECT list of summary_df for one region group. -/
def sRow (rows : List EnrichedRow) (k : String) : SummaryRow :=
  ⟨k, minList ((groupS rows k).map (fun r => r.year)),
    maxList ((groupS rows k).map (fun r => r.year)),
    round1 (avgQ ((groupS rows k).map (fun r => r.value))),
    (groupS rows k).length⟩

/-- ORDER BY avg_rate DESC. -/
def sumGE (a b : SummaryRow) : Prop := b.avg_rate ≤ a.avg_rate

instance : DecidableRel sumGE := fun a b => by unfold sumGE; infer_instance

instance : IsTotal SummaryRow sumGE :=
  ⟨fun a b => le_total b.avg_rate a.avg_rate⟩

instance : IsTrans SummaryRow sumGE :=
  ⟨fun _ _ _ hab hbc => le_trans hbc hab⟩

/-- The summary_df query (lines 328-339): same filter, group by region
alone, compute MIN(year), MAX(year), ROUND(AVG(value), 1) and COUNT(*),
sort descending by the rounded average. -/
def summary_df (rows : List EnrichedRow) : List SummaryRow :=
  List.insertionSort sumGE
    ((((filteredRows rows).map (fun r => r.region)).dedup).map (sRow (filteredRows rows)))

/-! ### The fetcher (notebook lines 69-87)

The download block for each file: if the destination exists, do nothing;
otherwise requests.get(url, timeout=60), response.raise_for_status(),
write_bytes(response.content).  The HTTP layer is abstracted as a
response function; the trace records the requests issued, the final file
content and whether raise_for_status aborted the run. -/

structure HttpRequest where
  url : String
  timeout : Nat
deriving DecidableEq

structure HttpResponse where
  status : Nat
  content : List Nat
deriving DecidableEq

/-- requests' raise_for_status: an HTTPError for any 4xx or 5xx status. -/
def raiseForStatus (r : HttpResponse) : Except String Unit :=
  if 400 ≤ r.status then .error "HTTPError" else .ok ()

structure FetchTrace where
  requests : List HttpRequest
  fileContent : Option (List Nat)
  failed : Bool
deriving DecidableEq

/-- One download block (lines 69-76 and 79-87 are two instances of it). -/
def fetchFile (url : String) (existing : Option (List Nat))
    (respond : HttpRequest → HttpResponse) : FetchTrace :=
  match existing with
  | some c => ⟨[], some c, false⟩
  | none =>
    let req : HttpRequest := ⟨url, 60⟩
    let resp := respond req
    match raiseForStatus resp with
    | .error _ => ⟨[req], none, true⟩
    | .ok _ => ⟨[req], some resp.content, false⟩

/-! ### The run as a step sequence (whole notebook)

The notebook's statements, in source order, as abstract steps.  A run
executes them in order; the first failing step aborts the run (an
unhandled Python exception), so the steps after it never execute.
conn.close() (line 346) is the last statement, with no try/finally
around the pipeline. -/

inductive Step where
  | fetchIndicator
  | fetchDictionary
  | openConn
  | loadIndicator
  | loadDictionary
  | transformClean
  | transformMapping
  | transformJoin
  | aggregateRegional
  | renderChart
  | aggregateSummary
  | closeConn
deriving DecidableEq, Fintype

/-- The notebook's statement order: downloads (lines 69-87), connect
(line 98), loads (lines 104-117), clean (150), mapping (181), join
(244), regional aggregate (266), chart save (320), summary aggregate
(328), close (346). -/
def script : List Step :=
  [.fetchIndicator, .fetchDictionary, .openConn, .loadIndicator, .loadDictionary,
   .transformClean, .transformMapping, .transformJoin, .aggregateRegional,
   .renderChart, .aggregateSummary, .closeConn]

/-- Execute steps in order with a given failure profile: the completed
steps, and whether the run aborted at a failing step. -/
def runSteps (fails : Step → Bool) : List Step → List Step × Bool
  | [] => ([], false)
  | s :: rest =>
    if fails s then ([], true)
    else
      let p := runSteps fails rest
      (s :: p.1, p.2)

theorem runSteps_all_ok (fails : Step → Bool) :
    ∀ l : List Step, (runSteps fails l).2 = false → (runSteps fails l).1 = l := by
  intro l
  induction l with
  | nil => intro _; rfl
  | cons s rest ih =>
    intro h
    by_cases hs : fails s
    · simp [runSteps, hs] at h
    · simp only [runSteps, hs, if_false, Bool.false_eq_true] at h ⊢
      rw [ih h]

theorem runSteps_last_mem (fails : Step → Bool) :
    ∀ (l : List Step) (x : Step), x ∉ l →
      (x ∈ (runSteps fails (l ++ [x])).1 ↔ (runSteps fails (l ++ [x])).2 = false) := by
  intro l
  induction l with
  | nil =>
    intro x _
    by_cases hx : fails x
    · simp [runSteps, hx]
    · simp [runSteps, hx]
  | cons s rest ih =>
    intro x hx
    have hxs : x ≠ s := fun h => hx (h ▸ List.mem_cons_self s rest)
    have hxr : x ∉ rest := fun h => hx (List.mem_cons_of_mem s h)
    by_cases hs : fails s
    · simp [runSteps, hs]
    · simp only [List.cons_append, runSteps, hs, if_false, Bool.false_eq_true,
        List.mem_cons, hxs, false_or]
      exact ih x hxr

example : (fetchFile "u" (some [7]) (fun _ => ⟨200, [1]⟩)).requests = [] := by decide
example : (fetchFile "u" none (fun _ => ⟨404, []⟩)).failed = true := by decide

/-! ### Helper lemmas -/

theorem region_mapping_keys_nodup : (region_mapping.map Prod.fst).Nodup := by decide

theorem region_mapping_no_unknown : ∀ p ∈ region_mapping, ¬ p.2 = "Unknown" := by decide

theorem region_mapping_no_other : ∀ p ∈ region_mapping, ¬ p.2 = "Other" := by decide

/-- A table whose key column has no duplicate matches any key at most once. -/
theorem filter_key_len : ∀ l : List (String × String), (l.map Prod.fst).Nodup →
    ∀ c : String, (l.filter (fun m => m.1 == c)).length ≤ 1 := by
  intro l
  induction l with
  | nil => intro _ c; simp
  | cons a l ih =>
    intro h c
    rw [List.map_cons, List.nodup_cons] at h
    by_cases hac : a.1 = c
    · have hnil : l.filter (fun m => m.1 == c) = [] := by
        apply List.filter_eq_nil_iff.mpr
        intro m hm hmc
        apply h.1
        have hmc' : m.1 = c := by simpa using hmc
        rw [hac, ← hmc']
        exact List.mem_map_of_mem Prod.fst hm
      simp [List.filter_cons, hac, hnil]
    · have hac' : (a.1 == c) = false := beq_eq_false_iff_ne.mpr hac
      simp only [List.filter_cons, hac', Bool.false_eq_true, if_false]
      exact ih h.2 c

theorem matchesFor_len_le_one (c : String) : (matchesFor c).length ≤ 1 :=
  filter_key_len region_mapping region_mapping_keys_nodup (upper c)

/-- Each clean row produces exactly the one enriched row enrichOne gives. -/
theorem enrichRow_eq (i : CleanRow) : enrichRow i = [enrichOne i] := by
  have hlen := matchesFor_len_le_one i.country_code
  rcases hm : matchesFor i.country_code with _ | ⟨m, ms⟩
  · simp [enrichRow, enrichOne, hm]
  · rcases ms with _ | ⟨m2, ms2⟩
    · simp [enrichRow, enrichOne, hm]
    · rw [hm] at hlen
      simp at hlen

theorem indicator_with_region_eq_map (clean : List CleanRow) :
    indicator_with_region clean = clean.map enrichOne := by
  induction clean with
  | nil => rfl
  | cons i l ih =>
    simp only [indicator_with_region, List.flatMap_cons, List.map_cons] at ih ⊢
    rw [enrichRow_eq, ih]
    rfl

theorem mem_matchesFor_mem_mapping {c : String} {m : String × String}
    (h : m ∈ matchesFor c) : m ∈ region_mapping :=
  List.mem_of_mem_filter h

/-- The region enrichOne assigns is a mapping region or the default. -/
theorem enrichOne_region_cases (i : CleanRow) :
    (enrichOne i).region = "Other" ∨ (enrichOne i).region ∈ region_mapping.map Prod.snd := by
  rcases hm : matchesFor i.country_code with _ | ⟨m, ms⟩
  · left
    simp [enrichOne, hm]
  · right
    have hmem : m ∈ region_mapping := mem_matchesFor_mem_mapping (by rw [hm]; exact List.mem_cons_self m ms)
    have : (enrichOne i).region = m.2 := by simp [enrichOne, hm]
    rw [this]
    exact List.mem_map_of_mem Prod.snd hmem

/-- MIN lemmas for foldl. -/
theorem foldl_min_le_init : ∀ (xs : List Int) (a : Int), xs.foldl min a ≤ a := by
  intro xs
  induction xs with
  | nil => intro a; exact le_refl a
  | cons x xs ih => intro a; exact le_trans (ih (min a x)) (min_le_left a x)

theorem foldl_min_le_mem : ∀ (xs : List Int) (a x : Int), x ∈ xs → xs.foldl min a ≤ x := by
  intro xs
  induction xs with
  | nil => intro a x hx; cases hx
  | cons y ys ih =>
    intro a x hx
    rcases List.mem_cons.mp hx with h | h
    · subst h
      exact le_trans (foldl_min_le_init ys (min a x)) (min_le_right a x)
    · exact ih (min a y) x h

theorem foldl_min_mem : ∀ (xs : List Int) (a : Int), xs.foldl min a = a ∨ xs.foldl min a ∈ xs := by
  intro xs
  induction xs with
  | nil => intro a; exact Or.inl rfl
  | cons y ys ih =>
    intro a
    rcases ih (min a y) with h | h
    · rcases min_cases a y with ⟨he, _⟩ | ⟨he, _⟩
      · exact Or.inl (by rw [List.foldl_cons, h, he])
      · exact Or.inr (by rw [List.foldl_cons, h, he]; exact List.mem_cons_self y ys)
    · exact Or.inr (List.mem_cons_of_mem y h)

theorem minList_le (l : List Int) (x : Int) (hx : x ∈ l) : minList l ≤ x := by
  cases l with
  | nil => cases hx
  | cons y ys =>
    rcases List.mem_cons.mp hx with h | h
    · subst h
      exact foldl_min_le_init ys x
    · exact foldl_min_le_mem ys y x h

theorem minList_mem (l : List Int) (h : l ≠ []) : minList l ∈ l := by
  cases l with
  | nil => exact absurd rfl h
  | cons y ys =>
    rcases foldl_min_mem ys y with h2 | h2
    · rw [minList, h2]; exact List.mem_cons_self y ys
    · exact List.mem_cons_of_mem y h2

/-- MAX lemmas for foldl. -/
theorem foldl_max_ge_init : ∀ (xs : List Int) (a : Int), a ≤ xs.foldl max a := by
  intro xs
  induction xs with
  | nil => intro a; exact le_refl a
  | cons x xs ih => intro a; exact le_trans (le_max_left a x) (ih (max a x))

theorem foldl_max_ge_mem : ∀ (xs : List Int) (a x : Int), x ∈ xs → x ≤ xs.foldl max a := by
  intro xs
  induction xs with
  | nil => intro a x hx; cases hx
  | cons y ys ih =>
    intro a x hx
    rcases List.mem_cons.mp hx with h | h
    · subst h
      exact le_trans (le_max_right a x) (foldl_max_ge_init ys (max a x))
    · exact ih (max a y) x h

theorem foldl_max_mem : ∀ (xs : List Int) (a : Int), xs.foldl max a = a ∨ xs.foldl max a ∈ xs := by
  intro xs
  induction xs with
  | nil => intro a; exact Or.inl rfl
  | cons y ys ih =>
    intro a
    rcases ih (max a y) with h | h
    · rcases max_cases a y with ⟨he, _⟩ | ⟨he, _⟩
      · exact Or.inl (by rw [List.foldl_cons, h, he])
      · exact Or.inr (by rw [List.foldl_cons, h, he]; exact List.mem_cons_self y ys)
    · exact Or.inr (List.mem_cons_of_mem y h)

theorem maxList_ge (l : List Int) (x : Int) (hx : x ∈ l) : x ≤ maxList l := by
  cases l with
  | nil => cases hx
  | cons y ys =>
    rcases List.mem_cons.mp hx with h | h
    · subst h
      exact foldl_max_ge_init ys x
    · exact foldl_max_ge_mem ys y x h

theorem maxList_mem (l : List Int) (h : l ≠ []) : maxList l ∈ l := by
  cases l with
  | nil => exact absurd rfl h
  | cons y ys =>
    rcases foldl_max_mem ys y with h2 | h2
    · rw [maxList, h2]; exact List.mem_cons_self y ys
    · exact List.mem_cons_of_mem y h2

/-- A successful clean produces one row per surviving raw row. -/
theorem castRows_ok_length : ∀ (rs : List RawRow) (l : List CleanRow),
    castRows rs = .ok l → l.length = rs.length := by
  intro rs
  induction rs with
  | nil =>
    intro l h
    simp only [castRows] at h
    cases h
    rfl
  | cons r rest ih =>
    intro l h
    simp only [castRows] at h
    cases hc : castRow r with
    | error e => rw [hc] at h; cases h
    | ok c =>
      rw [hc] at h
      cases hcs : castRows rest with
      | error e => rw [hcs] at h; cases h
      | ok cs =>
        rw [hcs] at h
        cases h
        simp [ih cs hcs]

/-- A surviving row whose cast fails makes the whole statement fail. -/
theorem castRows_mem_fail : ∀ (rs : List RawRow) (r : RawRow), r ∈ rs →
    (castRow r).isOk = false → (castRows rs).isOk = false := by
  intro rs
  induction rs with
  | nil => intro r hr; cases hr
  | cons s rest ih =>
    intro r hr hfail
    rcases List.mem_cons.mp hr with h | h
    · subst h
      cases hc : castRow r with
      | error e => simp [castRows, hc, Except.isOk, Except.toBool]
      | ok c => rw [hc] at hfail; cases hfail
    · cases hc : castRow s with
      | error e => simp [castRows, hc, Except.isOk, Except.toBool]
      | ok c =>
        have hrest := ih r h hfail
        cases hcs : castRows rest with
        | error e => simp [castRows, hc, hcs, Except.isOk, Except.toBool]
        | ok cs => rw [hcs] at hrest; cases hrest

example : (castInteger "2020").toOption = some 2020 := by decide
example : (castInteger "abc").isOk = false := by decide
example : (castDouble "61.5").toOption = some (mkRat 615 10) := by decide
example : (castDouble "").isOk = false := by decide
example : (castDouble "6.1.5").isOk = false := by decide
example : upper "chn" = "CHN" := by decide
example : strLt "East" "North" = true := by decide

/-! ### The claims -/

/-- C10 counterexample: the hardcoded mapping has 46 rows (10 + 10 + 7 +
6 + 2 + 5 + 6 across the seven regions), not 45 as the claim counts. -/
theorem region_mapping_count_is_46 :
    region_mapping.length = 46 ∧ ¬ region_mapping.length = 45 := by decide

/-- C10 (amended to the actual cardinality): in the hardcoded
region_mapping every country code appears in exactly one of the 46 rows
(the key column has no duplicate), every code is already uppercase, so
the join condition matches at most one mapping row for any code and each
clean row yields exactly one joined row. -/
theorem region_mapping_is_function :
    (region_mapping.map Prod.fst).Nodup
    ∧ region_mapping.length = 46
    ∧ (∀ m ∈ region_mapping, upper m.1 = m.1)
    ∧ (∀ c : String, (matchesFor c).length ≤ 1)
    ∧ (∀ i : CleanRow, (enrichRow i).length = 1) := by
  refine ⟨region_mapping_keys_nodup, by decide, by decide, matchesFor_len_le_one, ?_⟩
  intro i
  rw [enrichRow_eq]
  rfl

/-- C4: the left join neither drops nor duplicates rows - every clean row
appears exactly once in indicator_with_region, in order, with its five
columns carried through, and its region is 'Other' exactly when no
mapping row's country_code equals the uppercased clean country code. -/
theorem join_preserves_rows :
    ∀ clean : List CleanRow,
      (indicator_with_region clean).length = clean.length
      ∧ indicator_with_region clean = clean.map enrichOne
      ∧ (∀ i : CleanRow,
          (enrichOne i).country_code = i.country_code
          ∧ (enrichOne i).country_name = i.country_name
          ∧ (enrichOne i).year = i.year
          ∧ (enrichOne i).value = i.value
          ∧ (enrichOne i).indicator_name = i.indicator_name
          ∧ ((enrichOne i).region = "Other" ↔ ∀ m ∈ region_mapping, ¬ m.1 = upper i.country_code)) := by
  intro clean
  refine ⟨?_, indicator_with_region_eq_map clean, ?_⟩
  · rw [indicator_with_region_eq_map]
    exact List.length_map clean enrichOne
  · intro i
    refine ⟨rfl, rfl, rfl, rfl, rfl, ?_⟩
    have hiff : matchesFor i.country_code = [] ↔ ∀ m ∈ region_mapping, ¬ m.1 = upper i.country_code := by
      simp [matchesFor, List.filter_eq_nil_iff]
    rw [← hiff]
    rcases hm : matchesFor i.country_code with _ | ⟨m, ms⟩
    · simp [enrichOne, hm]
    · have hmm : m ∈ region_mapping :=
        mem_matchesFor_mem_mapping (by rw [hm]; exact List.mem_cons_self m ms)
      have hno := region_mapping_no_other m hmm
      simp [enrichOne, hm, hno]

/-- C5: every group regional_df outputs has at least 3 distinct
contributing country codes (num_countries is exactly the distinct-code
count of its (region, year) group among the filtered rows), and the
output is sorted ascending by (region, year). -/
theorem regional_df_threshold_and_order :
    ∀ rows : List EnrichedRow,
      (∀ a ∈ regional_df rows,
        3 ≤ a.num_countries
        ∧ a.num_countries =
            countDistinct ((groupRY (filteredRows rows) (a.region, a.year)).map (fun r => r.country_code)))
      ∧ List.Sorted ryLE (regional_df rows) := by
  intro rows
  constructor
  · intro a ha
    rw [regional_df, List.mem_insertionSort] at ha
    have ha3 := List.mem_filter.mp ha
    refine ⟨of_decide_eq_true ha3.2, ?_⟩
    rcases List.mem_map.mp ha3.1 with ⟨k, _, hka⟩
    rw [← hka]
    simp [ryRow]
  · exact List.sorted_insertionSort ryLE _

/-- C7: every row of summary_df describes a nonempty region group of the
filtered rows: first_year is the group's minimum year, last_year its
maximum year, avg_rate the rounded mean value and data_points the group
size; the output is sorted descending by the rounded average. -/
theorem summary_df_shape_and_order :
    ∀ rows : List EnrichedRow,
      (∀ s ∈ summary_df rows,
        groupS (filteredRows rows) s.region ≠ []
        ∧ s.first_year ∈ (groupS (filteredRows rows) s.region).map (fun r => r.year)
        ∧ (∀ y ∈ (groupS (filteredRows rows) s.region).map (fun r => r.year), s.first_year ≤ y)
        ∧ s.last_year ∈ (groupS (filteredRows rows) s.region).map (fun r => r.year)
        ∧ (∀ y ∈ (groupS (filteredRows rows) s.region).map (fun r => r.year), y ≤ s.last_year)
        ∧ s.avg_rate = round1 (avgQ ((groupS (filteredRows rows) s.region).map (fun r => r.value)))
        ∧ s.data_points = (groupS (filteredRows rows) s.region).length)
      ∧ List.Sorted sumGE (summary_df rows) := by
  intro rows
  constructor
  · intro s hs
    rw [summary_df, List.mem_insertionSort] at hs
    rcases List.mem_map.mp hs with ⟨k, hk, hks⟩
    have hkmem : k ∈ (filteredRows rows).map (fun r => r.region) := List.mem_dedup.mp hk
    rcases List.mem_map.mp hkmem with ⟨r, hr, hrk⟩
    have hrg : r ∈ groupS (filteredRows rows) k := by
      rw [groupS, List.mem_filter]
      exact ⟨hr, by simp [hrk]⟩
    have hne : groupS (filteredRows rows) k ≠ [] := fun hempty => by
      rw [hempty] at hrg
      cases hrg
    have hyne : (groupS (filteredRows rows) k).map (fun r => r.year) ≠ [] := by
      intro hempty
      exact hne (List.map_eq_nil_iff.mp hempty)
    rw [← hks]
    exact ⟨hne, minList_mem _ hyne, fun y hy => minList_le _ y hy,
      maxList_mem _ hyne, fun y hy => maxList_ge _ y hy, rfl, rfl⟩
  · exact List.sorted_insertionSort sumGE _

theorem mem_filteredRows_of_other {rows : List EnrichedRow} {r : EnrichedRow}
    (hr : r ∈ rows) (h : r.region = "Other") : r ∈ filteredRows rows :=
  List.mem_filter.mpr ⟨hr, by rw [h]; decide⟩

theorem other_bucket_summary {rows : List EnrichedRow} {r : EnrichedRow}
    (hr : r ∈ rows) (h : r.region = "Other") :
    ∃ s ∈ summary_df rows, s.region = "Other" := by
  have hf := mem_filteredRows_of_other hr h
  have hk : "Other" ∈ ((filteredRows rows).map (fun r => r.region)).dedup := by
    apply List.mem_dedup.mpr
    have hm : r.region ∈ (filteredRows rows).map (fun r => r.region) :=
      List.mem_map_of_mem (fun r => r.region) hf
    rw [h] at hm
    exact hm
  refine ⟨sRow (filteredRows rows) "Other", ?_, rfl⟩
  rw [summary_df, List.mem_insertionSort]
  exact List.mem_map_of_mem (sRow (filteredRows rows)) hk

theorem other_bucket_regional {rows : List EnrichedRow} {r : EnrichedRow}
    (hr : r ∈ rows) (h : r.region = "Other")
    (h3 : 3 ≤ (ryRow (filteredRows rows) ("Other", r.year)).num_countries) :
    ∃ a ∈ regional_df rows, a.region = "Other" ∧ a.year = r.year := by
  have hf := mem_filteredRows_of_other hr h
  have hk : ("Other", r.year) ∈ groupKeysRY (filteredRows rows) := by
    rw [groupKeysRY]
    apply List.mem_dedup.mpr
    have hm : (r.region, r.year) ∈ (filteredRows rows).map (fun r => (r.region, r.year)) :=
      List.mem_map_of_mem (fun r => (r.region, r.year)) hf
    rw [h] at hm
    exact hm
  refine ⟨ryRow (filteredRows rows) ("Other", r.year), ?_, rfl, rfl⟩
  rw [regional_df, List.mem_insertionSort]
  exact List.mem_filter.mpr
    ⟨List.mem_map_of_mem (ryRow (filteredRows rows)) hk, decide_eq_true h3⟩

/-- Clean rows whose codes have no mapping entry: enrichment gives all of
them region 'Other'. -/
def otherClean : List CleanRow :=
  [⟨"ZZZ", "Zedland", 2020, mkRat 50 1, "Labor force participation rate"⟩,
   ⟨"YYY", "Whyland", 2020, mkRat 60 1, "Labor force participation rate"⟩,
   ⟨"XXX", "Exland", 2020, mkRat 70 1, "Labor force participation rate"⟩]

/-- C1 counterexample: three enriched rows with region 'Other' (their
codes match nothing in region_mapping) survive the filter and regional_df
contains the ('Other', 2020) group - 'Other' rows are not excluded before
the aggregation. -/
theorem other_group_reaches_regional_df :
    (∀ r ∈ indicator_with_region otherClean, r.region = "Other")
    ∧ (regional_df (indicator_with_region otherClean)).map
        (fun a => (a.region, a.year, a.num_countries)) = [("Other", 2020, 3)] := by
  constructor
  · decide
  · decide

/-- C1 (amended): rows with region 'Other' are NOT excluded before the
RegionYearAggregate grouping - the literal filter only removes NULL,
empty and 'Unknown' regions, every 'Other' row is kept, and an
('Other', year) group appears in regional_df whenever it meets the
distinct-country threshold. -/
theorem other_rows_not_excluded :
    ∀ rows : List EnrichedRow,
      (∀ r ∈ rows, r.region = "Other" → r ∈ filteredRows rows)
      ∧ (∀ r ∈ rows, r.region = "Other" →
          3 ≤ (ryRow (filteredRows rows) ("Other", r.year)).num_countries →
          ∃ a ∈ regional_df rows, a.region = "Other" ∧ a.year = r.year) := by
  intro rows
  exact ⟨fun r hr h => mem_filteredRows_of_other hr h,
    fun r hr h h3 => other_bucket_regional hr h h3⟩

/-- C2: the shared aggregation filter excludes exactly NULL, empty and
the literal 'Unknown'; enrichment never assigns 'Unknown', so every
enriched row with region 'Other' passes the filter and contributes: an
'Other' bucket appears in summary_df, and in regional_df whenever the
('Other', year) group meets the 3-country threshold. -/
theorem unknown_filter_passes_other :
    (∀ x : Option String, regionFilter x = false ↔ (x = none ∨ x = some "" ∨ x = some "Unknown"))
    ∧ (∀ i : CleanRow, ∀ e ∈ enrichRow i, ¬ e.region = "Unknown")
    ∧ (∀ rows : List EnrichedRow, ∀ r ∈ rows, r.region = "Other" →
        r ∈ filteredRows rows ∧ ∃ s ∈ summary_df rows, s.region = "Other")
    ∧ (∀ rows : List EnrichedRow, ∀ r ∈ rows, r.region = "Other" →
        3 ≤ (ryRow (filteredRows rows) ("Other", r.year)).num_countries →
        ∃ a ∈ regional_df rows, a.region = "Other" ∧ a.year = r.year) := by
  refine ⟨?_, ?_, ?_, ?_⟩
  · intro x
    cases x with
    | none => simp [regionFilter]
    | some s =>
      simp [regionFilter]
      tauto
  · intro i e he hu
    rw [enrichRow_eq] at he
    have he' : e = enrichOne i := List.mem_singleton.mp he
    subst he'
    rcases enrichOne_region_cases i with h | h
    · exact absurd (h.symm.trans hu) (by decide)
    · rcases List.mem_map.mp h with ⟨p, hp, hps⟩
      exact region_mapping_no_unknown p hp (hps.trans hu)
  · intro rows r hr h
    exact ⟨mem_filteredRows_of_other hr h, other_bucket_summary hr h⟩
  · intro rows r hr h h3
    exact other_bucket_regional hr h h3

/-- Raw rows for the C3 counterexample: the second row's OBS_VALUE is
non-null but not numeric. -/
def badRaw : List RawRow :=
  [⟨"USA", "United States", some "2020", some "61.5", "Labor force participation rate"⟩,
   ⟨"CAN", "Canada", some "2020", some "n/a", "Labor force participation rate"⟩]

/-- C3 counterexample: both rows pass the null filter, the second row's
cast fails, and the whole indicator_clean statement fails rather than
excluding that single row (the well-formed prefix alone succeeds). -/
theorem cast_failure_aborts_statement :
    (indicator_clean badRaw).isOk = false
    ∧ badRaw.map notNullRow = [true, true]
    ∧ (indicator_clean (badRaw.take 1)).isOk = true := by decide

/-- C3 (amended): rows with NULL OBS_VALUE or TIME_PERIOD are excluded
per row by the WHERE clause (a successful clean has exactly one output
row per surviving raw row), but a surviving row whose value or period
cannot be cast makes the whole CREATE TABLE statement fail - the cast
failure is fatal to the transformation, not a silent per-row exclusion. -/
theorem cast_failure_fatal_not_per_row :
    ∀ raw : List RawRow,
      (∀ l : List CleanRow, indicator_clean raw = .ok l → l.length = (raw.filter notNullRow).length)
      ∧ (∀ r ∈ raw, notNullRow r = true → (castRow r).isOk = false →
          (indicator_clean raw).isOk = false) := by
  intro raw
  constructor
  · intro l hl
    exact castRows_ok_length (raw.filter notNullRow) l hl
  · intro r hr hnn hfail
    exact castRows_mem_fail (raw.filter notNullRow) r (List.mem_filter.mpr ⟨hr, hnn⟩) hfail

/-- C6 counterexample: with a failure at the join step, the run aborts
after the connection was opened and conn.close() never executes - the
handle is left open on this failing path. -/
theorem close_skipped_on_failure :
    Step.openConn ∈ (runSteps (fun s => s == Step.transformJoin) script).1
    ∧ (runSteps (fun s => s == Step.transformJoin) script).2 = true
    ∧ Step.closeConn ∉ (runSteps (fun s => s == Step.transformJoin) script).1 := by decide

/-- C6 (amended): conn.close() is the last statement of the run with no
try/finally around the pipeline, so the connection is closed exactly on
the fully successful path; every failing run terminates without
executing it. -/
theorem close_runs_iff_no_failure :
    ∀ fails : Step → Bool,
      (Step.closeConn ∈ (runSteps fails script).1 ↔ (runSteps fails script).2 = false)
      ∧ ((runSteps fails script).2 = false → (runSteps fails script).1 = script) := by
  intro fails
  constructor
  · have hs : script =
        [Step.fetchIndicator, Step.fetchDictionary, Step.openConn, Step.loadIndicator,
         Step.loadDictionary, Step.transformClean, Step.transformMapping, Step.transformJoin,
         Step.aggregateRegional, Step.renderChart, Step.aggregateSummary] ++ [Step.closeConn] := rfl
    rw [hs]
    exact runSteps_last_mem fails _ Step.closeConn (by decide)
  · exact runSteps_all_ok fails script

/-- C8: the fetcher skips the request entirely when the destination
exists (content unchanged, no request, no failure); otherwise it issues
exactly one GET with a 60-second timeout, marks the run failed on an
error status (4xx/5xx), and on success stores the raw response bytes
verbatim. -/
theorem fetcher_contract :
    ∀ (url : String) (existing : Option (List Nat)) (respond : HttpRequest → HttpResponse),
      (∀ c : List Nat, existing = some c →
        fetchFile url existing respond = ⟨[], some c, false⟩)
      ∧ (existing = none →
          (fetchFile url existing respond).requests = [⟨url, 60⟩]
          ∧ (400 ≤ (respond ⟨url, 60⟩).status →
              (fetchFile url existing respond).failed = true
              ∧ (fetchFile url existing respond).fileContent = none)
          ∧ ((respond ⟨url, 60⟩).status < 400 →
              (fetchFile url existing respond).failed = false
              ∧ (fetchFile url existing respond).fileContent = some (respond ⟨url, 60⟩).content)) := by
  intro url existing respond
  constructor
  · intro c hc
    subst hc
    rfl
  · intro he
    subst he
    refine ⟨?_, fun h => ?_, fun h => ?_⟩
    · by_cases h : 400 ≤ (respond ⟨url, 60⟩).status <;>
        simp [fetchFile, raiseForStatus, h]
    · constructor <;> simp [fetchFile, raiseForStatus, h]
    · constructor <;> simp [fetchFile, raiseForStatus, not_le.mpr h]

/-- C9 counterexample: chart.save is step 9 of the script and the
summary aggregation is step 10, absent from everything before the
renderer - so not all aggregator output precedes the chart
serialization. -/
theorem summary_computed_after_render :
    script[9]? = some Step.renderChart
    ∧ script[10]? = some Step.aggregateSummary
    ∧ Step.aggregateSummary ∉ script.take 10 := by decide

/-- C9 (amended): the pipeline is linear and every step runs exactly
once, in the source order fetches, connect, loads, transforms,
region-year aggregate, chart render, region summary, close: the
region-year aggregate precedes the renderer, but the region summary is
computed only after the chart file is saved. -/
theorem pipeline_stage_order :
    (runSteps (fun _ => false) script).1 = script
    ∧ (runSteps (fun _ => false) script).2 = false
    ∧ (∀ s : Step, script.count s = 1)
    ∧ script.take 8 = [Step.fetchIndicator, Step.fetchDictionary, Step.openConn,
        Step.loadIndicator, Step.loadDictionary, Step.transformClean,
        Step.transformMapping, Step.transformJoin]
    ∧ script[8]? = some Step.aggregateRegional
    ∧ script[9]? = some Step.renderChart
    ∧ script[10]? = some Step.aggregateSummary
    ∧ script[11]? = some Step.closeConn := by decide

/-! ### End-to-end sanity checks on concrete data -/

example :
    (indicator_clean [⟨"USA", "United States", some "2020", some "61.5", "L"⟩,
                      ⟨"MEX", "Mexico", some "2020", none, "L"⟩]).toOption =
      some [⟨"USA", "United States", 2020, mkRat 615 10, "L"⟩] := by decide

example :
    (summary_df [⟨"USA", "United States", 2019, mkRat 60 1, "L", "North America"⟩,
                 ⟨"CAN", "Canada", 2021, mkRat 70 1, "L", "North America"⟩]).map
      (fun s => (s.region, s.first_year, s.last_year, s.data_points)) =
      [("North America", 2019, 2021, 2)] := by decide

example :
    ((indicator_with_region [⟨"usa", "United States", 2020, mkRat 61 1, "L"⟩]).map
      (fun r => r.region)) = ["North America"] := by decide

end WorldBank
